import Mathlib

/-!
Verification of the E-Manafa derived-metric engine: a shallow embedding of
the energy calculator, memory statistics aggregator, battery drain
calculator and the Perfetto service factory, with theorems checking the
documented behaviour.

Numeric values (Python floats) are modelled as exact rationals (`Rat`);
every operation the engine performs on them (+, -, *, /, min, max, sum) is
exact in this model.  External effects (ADB queries, trace-file loading)
are modelled as explicit inputs.
-/

namespace EManafa

/-- 1 microwatt-second in Joules: the `1e-6` conversion factor used by
`calculate_energy_from_power_rails`. -/
def microJoule : Rat := 1 / 1000000

/-- An energy report: `total` Joules and the per-rail breakdown, as built by
`calculate_energy_from_power_rails` (Python dict modelled as an association
list in rail order). -/
structure EnergyReport where
  total : Rat
  by_rail : List (String × Rat)
deriving DecidableEq, Repr

/-- The energy a rail's sample values contribute when the rail has at least 2
samples: `(values[-1] - values[0]) * 1e-6` Joules. -/
def railEnergy (values : List Rat) : Rat :=
  (values.getLastD 0 - values.headD 0) * microJoule

/-- The by-rail dictionary accumulated by the rail loop of
`calculate_energy_from_power_rails`: a rail with at least 2 samples
contributes `(values[-1] - values[0]) * 1e-6` Joules; otherwise it is
skipped. -/
def energy_by_rail : List (String × List Rat) → List (String × Rat)
  | [] => []
  | r :: rs =>
    if 2 ≤ r.2.length then (r.1, railEnergy r.2) :: energy_by_rail rs
    else energy_by_rail rs

/-- Embedding of `calculate_energy_from_power_rails`
(src/manafa/parsing/perfettoEnergyCalculator.py).  The input is the list of
power-rail counter series extracted from the trace, each a rail name with its
time-ordered sample values; the trace-query layer is external.  When the
trace has no power rails the function returns `None` (line 62-64); otherwise
it returns the report with the loop's accumulated total and by-rail dict. -/
def calculate_energy_from_power_rails (rails : List (String × List Rat)) :
    Option EnergyReport :=
  if rails = [] then
    none
  else
    some { total := ((energy_by_rail rails).map Prod.snd).sum,
           by_rail := energy_by_rail rails }

/-- In an association list whose keys are distinct, a key determines its
value. -/
lemma snd_eq_of_nodup_fst {α β : Type} {l : List (α × β)}
    (h : (l.map Prod.fst).Nodup) {a : α} {b c : β}
    (hb : (a, b) ∈ l) (hc : (a, c) ∈ l) : b = c := by
  induction l with
  | nil => cases hb
  | cons x xs ih =>
    rw [List.map_cons, List.nodup_cons] at h
    rcases List.mem_cons.mp hb with hb1 | hb1 <;> rcases List.mem_cons.mp hc with hc1 | hc1
    · exact congrArg Prod.snd (hb1.trans hc1.symm)
    · refine absurd ?_ h.1
      have ha : a ∈ xs.map Prod.fst := List.mem_map_of_mem Prod.fst hc1
      rw [← hb1]
      exact ha
    · refine absurd ?_ h.1
      have ha : a ∈ xs.map Prod.fst := List.mem_map_of_mem Prod.fst hb1
      rw [← hc1]
      exact ha
    · exact ih h.2 hb1 hc1

/-- Characterisation of the entries of the by-rail dictionary. -/
lemma mem_energy_by_rail {rails : List (String × List Rat)} {name : String} {e : Rat} :
    (name, e) ∈ energy_by_rail rails ↔
      ∃ values, (name, values) ∈ rails ∧ 2 ≤ values.length ∧ e = railEnergy values := by
  induction rails with
  | nil => simp [energy_by_rail]
  | cons r rs ih =>
    obtain ⟨n, vs⟩ := r
    by_cases h2 : 2 ≤ vs.length
    · simp only [energy_by_rail, if_pos h2, List.mem_cons, ih, Prod.mk.injEq]
      constructor
      · rintro (⟨hn, he⟩ | ⟨values, hv, hlen, he⟩)
        · exact ⟨vs, Or.inl ⟨hn, rfl⟩, h2, he⟩
        · exact ⟨values, Or.inr hv, hlen, he⟩
      · rintro ⟨values, (⟨hn, hv⟩ | hv), hlen, he⟩
        · subst hn; subst hv
          exact Or.inl ⟨rfl, he⟩
        · exact Or.inr ⟨values, hv, hlen, he⟩
    · simp only [energy_by_rail, if_neg h2, ih, List.mem_cons, Prod.mk.injEq]
      constructor
      · rintro ⟨values, hv, hlen, he⟩
        exact ⟨values, Or.inr hv, hlen, he⟩
      · rintro ⟨values, (⟨hn, hv⟩ | hv), hlen, he⟩
        · subst hv; exact absurd hlen h2
        · exact ⟨values, hv, hlen, he⟩

/-- If every rail has fewer than 2 samples, the by-rail dictionary is empty. -/
lemma energy_by_rail_eq_nil {rails : List (String × List Rat)}
    (hall : ∀ r ∈ rails, r.2.length < 2) : energy_by_rail rails = [] := by
  induction rails with
  | nil => rfl
  | cons r rs ih =>
    have h1 : r.2.length < 2 := hall r (List.mem_cons_self r rs)
    simp only [energy_by_rail, if_neg (by omega : ¬ 2 ≤ r.2.length)]
    exact ih fun x hx => hall x (List.mem_cons_of_mem r hx)

/-- C1: for every rail with at least 2 samples the report maps the rail to
`(last sample - first sample) * 1e-6` Joules; a counter decrease between
first and last sample yields a negative entry, propagated unmasked; rails
with 0 or 1 samples are absent from the by-rail dictionary; and the total is
exactly the sum of the by-rail values, so skipped rails contribute 0. -/
theorem calculate_energy_diff_and_skip
    (rails : List (String × List Rat)) (report : EnergyReport)
    (hnd : (rails.map Prod.fst).Nodup)
    (hres : calculate_energy_from_power_rails rails = some report) :
    (∀ name values, (name, values) ∈ rails → 2 ≤ values.length →
        (name, (values.getLastD 0 - values.headD 0) * microJoule) ∈ report.by_rail) ∧
    (∀ name values, (name, values) ∈ rails → 2 ≤ values.length →
        values.getLastD 0 < values.headD 0 →
        ∃ e, (name, e) ∈ report.by_rail ∧ e < 0) ∧
    (∀ name values, (name, values) ∈ rails → values.length < 2 →
        ∀ e, (name, e) ∉ report.by_rail) ∧
    report.total = (report.by_rail.map Prod.snd).sum := by
  unfold calculate_energy_from_power_rails at hres
  split at hres
  · exact absurd hres (by simp)
  · have h := Option.some.inj hres
    subst h
    refine ⟨?_, ?_, ?_, rfl⟩
    · intro name values hmem hlen
      exact mem_energy_by_rail.mpr ⟨values, hmem, hlen, rfl⟩
    · intro name values hmem hlen hlt
      refine ⟨railEnergy values, mem_energy_by_rail.mpr ⟨values, hmem, hlen, rfl⟩, ?_⟩
      have hms : (0 : Rat) < microJoule := by norm_num [microJoule]
      exact mul_neg_of_neg_of_pos (sub_neg.mpr hlt) hms
    · intro name values hmem hlen e hmem2
      obtain ⟨values2, hv2, hlen2, _⟩ := mem_energy_by_rail.mp hmem2
      have heq : values2 = values := snd_eq_of_nodup_fst hnd hv2 hmem
      subst heq
      omega

/-- Concrete input for the energy-calculator theorems: one increasing rail,
one single-sample rail, one decreasing rail. -/
def railsEx : List (String × List Rat) :=
  [("power.rail.A", [100, 100, 350]), ("power.rail.B", [5]), ("power.rail.C", [10, 4])]

/-- The report the calculator produces on `railsEx`. -/
def reportEx : EnergyReport :=
  { total := 244 * microJoule,
    by_rail := [("power.rail.A", 250 * microJoule), ("power.rail.C", -6 * microJoule)] }

lemma calculate_energy_railsEx : calculate_energy_from_power_rails railsEx = some reportEx := by
  unfold railsEx calculate_energy_from_power_rails
  rw [if_neg (by decide)]
  norm_num [energy_by_rail, railEnergy, reportEx, microJoule]

/-- Witness for C1 at `railsEx`: the increasing rail appears with its
difference, the one-sample rail is absent, and the total is the by-rail
sum. -/
theorem calculate_energy_diff_and_skip_witness :
    (("power.rail.A", ((350 : Rat) - 100) * microJoule) ∈ reportEx.by_rail) ∧
    (("power.rail.B", (0 : Rat)) ∉ reportEx.by_rail) ∧
    reportEx.total = (reportEx.by_rail.map Prod.snd).sum := by
  have h := calculate_energy_diff_and_skip railsEx reportEx (by decide) calculate_energy_railsEx
  refine ⟨?_, ?_, h.2.2.2⟩
  · have := h.1 "power.rail.A" [100, 100, 350] (by simp [railsEx]) (by decide)
    simpa using this
  · exact h.2.2.1 "power.rail.B" [5] (by simp [railsEx]) (by decide) 0

/-- C5 counterexample: on an input with no power rails at all, the code
returns the `None` sentinel (line 62-64 of perfettoEnergyCalculator.py), not
the empty report claimed. -/
theorem energy_empty_rails_returns_none :
    calculate_energy_from_power_rails [] = none ∧
    (none : Option EnergyReport) ≠ some { total := 0, by_rail := [] } := by
  constructor
  · simp [calculate_energy_from_power_rails]
  · simp

/-- C5 amended: if at least one rail is present but none has 2 or more
samples, the result is the empty report `{total := 0, by_rail := []}` (no
exception is possible: the function is total); with no rails at all the
function returns `none` instead. -/
theorem energy_no_sufficient_rails_empty_report
    (rails : List (String × List Rat)) (hne : rails ≠ [])
    (hall : ∀ r ∈ rails, r.2.length < 2) :
    calculate_energy_from_power_rails rails = some { total := 0, by_rail := [] } := by
  unfold calculate_energy_from_power_rails
  rw [if_neg hne, energy_by_rail_eq_nil hall]
  simp

/-- Witness for the amended C5 at a single one-sample rail. -/
theorem energy_no_sufficient_rails_empty_report_witness :
    calculate_energy_from_power_rails [("power.rail.B", [5])] =
      some { total := 0, by_rail := [] } :=
  energy_no_sufficient_rails_empty_report [("power.rail.B", [5])] (by decide)
    (by intro r hr; simp only [List.mem_singleton] at hr; subst hr; decide)

/-! ## Perfetto service factory
(src/manafa/services/perfettoServiceFactory.py and the
`PerfettoServiceEnhanced.__init__` constructor of
src/manafa/services/perfettoServiceEnhanced.py).  The external capability
probes `device_has_perfetto` and `device_supports_power_rails` are passed in
as booleans; a raised Python exception is modelled as `Except.error` with
the exception message. -/

/-- The service object the factory returns: the legacy `PerfettoService`, or
a `PerfettoServiceEnhanced` carrying its two mode flags and the config file
its constructor selected. -/
inductive PerfettoServiceChoice where
  | legacy : PerfettoServiceChoice
  | enhanced (enable_energy enable_memory : Bool) (cfg_file : String) : PerfettoServiceChoice
deriving DecidableEq, Repr

/-- Embedding of `PerfettoServiceEnhanced.__init__`: selects the config file
from the two mode flags, raising `ValueError` when both are off. -/
def perfettoServiceEnhancedInit (enable_energy enable_memory : Bool) :
    Except String PerfettoServiceChoice :=
  if enable_energy && enable_memory then
    Except.ok (PerfettoServiceChoice.enhanced enable_energy enable_memory
      "perfetto_config_both.pbtxt")
  else if enable_energy then
    Except.ok (PerfettoServiceChoice.enhanced enable_energy enable_memory
      "perfetto_config_power_rails.pbtxt")
  else if enable_memory then
    Except.ok (PerfettoServiceChoice.enhanced enable_energy enable_memory
      "perfetto_config_memory_only.pbtxt")
  else
    Except.error "Must enable either energy or memory profiling"

/-- Embedding of `create_perfetto_service`
(src/manafa/services/perfettoServiceFactory.py, lines 32-88). -/
def create_perfetto_service (device_has_perfetto device_supports_power_rails : Bool)
    (enable_energy enable_memory force_enhanced force_legacy : Bool) :
    Except String PerfettoServiceChoice :=
  if !device_has_perfetto then
    Except.error "Perfetto is not available on this device"
  else if force_legacy then
    Except.ok PerfettoServiceChoice.legacy
  else if force_enhanced then
    perfettoServiceEnhancedInit enable_energy enable_memory
  else if enable_energy && enable_memory && device_supports_power_rails then
    perfettoServiceEnhancedInit true true
  else if enable_energy && device_supports_power_rails then
    perfettoServiceEnhancedInit true false
  else if enable_memory then
    perfettoServiceEnhancedInit false true
  else
    Except.ok PerfettoServiceChoice.legacy

/-- The strategy variant a factory result represents. -/
inductive CollectionStrategy where
  | Legacy : CollectionStrategy
  | EnhancedEnergy : CollectionStrategy
  | EnhancedMemory : CollectionStrategy
  | EnhancedBoth : CollectionStrategy
deriving DecidableEq, Repr

/-- Classifies a factory result as a strategy variant. -/
def strategyOfChoice : PerfettoServiceChoice → CollectionStrategy
  | PerfettoServiceChoice.legacy => CollectionStrategy.Legacy
  | PerfettoServiceChoice.enhanced true true _ => CollectionStrategy.EnhancedBoth
  | PerfettoServiceChoice.enhanced true false _ => CollectionStrategy.EnhancedEnergy
  | PerfettoServiceChoice.enhanced false true _ => CollectionStrategy.EnhancedMemory
  | PerfettoServiceChoice.enhanced false false _ => CollectionStrategy.Legacy

/-- Modelled from the spec: the resolution table of the claim, amended only
in the forceEnhanced row — with neither energy nor memory requested the
enhanced constructor rejects the request (`none` here) instead of yielding a
strategy. -/
def resolveStrategySpec (forceLegacy forceEnhanced requestedEnergy requestedMemory
    deviceSupportsRails : Bool) : Option CollectionStrategy :=
  if forceLegacy then some CollectionStrategy.Legacy
  else if forceEnhanced then
    if requestedEnergy && requestedMemory then some CollectionStrategy.EnhancedBoth
    else if requestedEnergy then some CollectionStrategy.EnhancedEnergy
    else if requestedMemory then some CollectionStrategy.EnhancedMemory
    else none
  else if requestedEnergy && requestedMemory && deviceSupportsRails then
    some CollectionStrategy.EnhancedBoth
  else if requestedEnergy && deviceSupportsRails then
    some CollectionStrategy.EnhancedEnergy
  else if requestedMemory then
    some CollectionStrategy.EnhancedMemory
  else
    some CollectionStrategy.Legacy

/-- C2 counterexample: `force_enhanced` with neither energy nor memory
requested makes the factory raise the constructor's `ValueError` instead of
yielding any Enhanced strategy. -/
theorem force_enhanced_without_request_errors :
    create_perfetto_service true false false false true false =
      Except.error "Must enable either energy or memory profiling" := rfl

/-- C2 amended: on a device with perfetto, the factory follows the claimed
first-match resolution order for every combination of flags, except that
`force_enhanced` with neither energy nor memory requested fails with the
enhanced constructor's `ValueError` (the `none` row of the spec table)
rather than yielding a strategy. -/
theorem create_perfetto_service_resolution_table
    (rails e m fe fl : Bool) :
    (create_perfetto_service true rails e m fe fl).toOption.map strategyOfChoice =
      resolveStrategySpec fl fe e m rails := by
  cases rails <;> cases e <;> cases m <;> cases fe <;> cases fl <;> rfl

/-- C6 counterexample: with neither energy nor memory requested and no force
flag, the factory silently resolves to the legacy service (the final `else`
of `create_perfetto_service`), instead of failing with an invalid-request
error. -/
theorem no_request_no_force_resolves_legacy :
    create_perfetto_service true true false false false false =
      Except.ok PerfettoServiceChoice.legacy := rfl

/-- C6 amended: with neither energy nor memory requested, resolution without
force flags silently yields `Legacy`; the invalid-request `ValueError` is
raised only when `force_enhanced` is set (the enhanced constructor rejects
the empty request). -/
theorem invalid_request_only_under_force_enhanced (rails : Bool) :
    create_perfetto_service true rails false false false false =
      Except.ok PerfettoServiceChoice.legacy ∧
    create_perfetto_service true rails false false true false =
      Except.error "Must enable either energy or memory profiling" := by
  cases rails <;> exact ⟨rfl, rfl⟩

/-! ## Battery drain calculator
(src/manafa/utils/BatteryDrainCalculator.py).  The ADB query and the regex
scan over `dumpsys battery` output are external: a fetch attempt is modelled
by an `Option RawBatteryOutput` — `none` for a failed shell command, `some`
for the fields the regex patterns extracted from the text (each `none` when
its pattern had no match). -/

/-- The integers the regex patterns of `get_battery_properties` extract from
the raw `dumpsys battery` text. -/
structure RawBatteryOutput where
  charge_counter : Option Int
  alt_capacity : Option Int
  voltage_mv : Option Int
  temperature : Option Int
  health_code : Option Int
  level : Option Int
deriving DecidableEq, Repr

/-- The health-code → multiplier chain of `get_battery_properties`
(lines 69-76). -/
def health_multiplier_of (health_code : Int) : Rat :=
  if health_code = 2 then 1.0
  else if health_code = 3 then 0.8
  else if health_code = 4 then 0.5
  else 0.9

/-- The parsed battery properties dictionary once all required keys are
present (missing optional keys modelled as `none` fields). -/
structure BatteryProperties where
  capacity_mah : Rat
  voltage_mv : Int
  health_code : Int
  health_multiplier : Rat
  temperature_c : Option Rat
  level : Option Int
deriving DecidableEq, Repr

/-- Embedding of `get_battery_properties`: `none` input models a failed
`adb shell dumpsys battery`; the charge-counter capacity is converted from
µAh to mAh by `/1000`, the alternative `battery capacity` field is used
as-is when the primary is absent; the call fails unless voltage, capacity
and health were all found; the health multiplier is attached and the
temperature converted to Celsius by `/10.0`. -/
def get_battery_properties (raw : Option RawBatteryOutput) : Option BatteryProperties :=
  match raw with
  | none => none
  | some r =>
    let capacity : Option Rat :=
      match r.charge_counter with
      | some c => some ((c : Rat) / 1000)
      | none => r.alt_capacity.map (fun c => (c : Rat))
    match r.voltage_mv, capacity, r.health_code with
    | some v, some cap, some h =>
      some { capacity_mah := cap
             voltage_mv := v
             health_code := h
             health_multiplier := health_multiplier_of h
             temperature_c := r.temperature.map (fun t => (t : Rat) / 10)
             level := r.level }
    | _, _, _ => none

/-- The result dictionary of `calculate_battery_drain` (optional keys as
`Option` fields). -/
structure BatteryDrainReport where
  design_capacity_mah : Rat
  current_voltage_v : Rat
  health_multiplier : Rat
  effective_capacity_mah : Rat
  total_battery_energy_wh : Rat
  consumed_energy_joules : Rat
  consumed_energy_wh : Rat
  battery_drain_percentage : Rat
  temperature_c : Option Rat
  battery_level_percent : Option Int
deriving DecidableEq, Repr

/-- The total battery energy in Wh computed in step 2 of
`calculate_battery_drain`: `(capacity * multiplier * (voltage/1000)) / 1000`. -/
def total_battery_energy_wh (props : BatteryProperties) : Rat :=
  (props.capacity_mah * props.health_multiplier * ((props.voltage_mv : Rat) / 1000)) / 1000

/-- Steps 1-5 of `calculate_battery_drain`, given the (already available)
properties: returns `none` on the zero-total-energy guard (line 118-120),
and the result dictionary otherwise. -/
def drain_from_properties (props : BatteryProperties) (energy_joules : Rat) :
    Option BatteryDrainReport :=
  if total_battery_energy_wh props = 0 then
    none
  else
    some { design_capacity_mah := props.capacity_mah
           current_voltage_v := (props.voltage_mv : Rat) / 1000
           health_multiplier := props.health_multiplier
           effective_capacity_mah := props.capacity_mah * props.health_multiplier
           total_battery_energy_wh := total_battery_energy_wh props
           consumed_energy_joules := energy_joules
           consumed_energy_wh := energy_joules / 3600
           battery_drain_percentage :=
             (energy_joules / 3600 / total_battery_energy_wh props) * 100
           temperature_c := props.temperature_c
           battery_level_percent := props.level }

/-- A `BatteryDrainCalculator` instance: the single mutable field
`self.properties`. -/
structure BatteryDrainCalculator where
  properties : Option BatteryProperties
deriving DecidableEq, Repr

/-- Outcome of one `calculate_battery_drain` call: the instance state after
the call, the fetch attempts not yet consumed, how many external fetches the
call performed, and its return value. -/
structure DrainCallOutcome where
  state : BatteryDrainCalculator
  env : List (Option RawBatteryOutput)
  fetches : Nat
  result : Option BatteryDrainReport
deriving DecidableEq, Repr

/-- Embedding of `calculate_battery_drain`: when `self.properties` is `None`
it performs one external fetch (consuming the next scripted attempt from
`env`, an empty `env` behaving as a failed command) and stores the outcome
in `self.properties`; it then computes the drain report from the stored
properties, or returns `None` when they are still missing. -/
def calculate_battery_drain (self : BatteryDrainCalculator)
    (env : List (Option RawBatteryOutput)) (energy_joules : Rat) : DrainCallOutcome :=
  match self.properties with
  | some props =>
    { state := self, env := env, fetches := 0,
      result := drain_from_properties props energy_joules }
  | none =>
    let fetched := get_battery_properties (env.headD none)
    { state := { properties := fetched }, env := env.tail, fetches := 1,
      result := match fetched with
                | none => none
                | some props => drain_from_properties props energy_joules }

/-- Outcome of a sequence of `calculate_battery_drain` calls on one
instance. -/
structure DrainRunOutcome where
  state : BatteryDrainCalculator
  env : List (Option RawBatteryOutput)
  fetches : Nat
  results : List (Option BatteryDrainReport)
deriving DecidableEq, Repr

/-- Runs `calculate_battery_drain` once per requested energy figure,
threading the instance state and the scripted fetch attempts, and counting
the external fetches performed over the whole run. -/
def run_drain_calls (self : BatteryDrainCalculator)
    (env : List (Option RawBatteryOutput)) : List Rat → DrainRunOutcome
  | [] => { state := self, env := env, fetches := 0, results := [] }
  | e :: es =>
    let c := calculate_battery_drain self env e
    let rest := run_drain_calls c.state c.env es
    { state := rest.state, env := rest.env, fetches := c.fetches + rest.fetches,
      results := c.result :: rest.results }

/-- Concrete `dumpsys battery` extraction matching the spec's example:
charge counter 3000000 µAh (3000 mAh), voltage 3800 mV, health 2 (GOOD),
temperature 250 deci-°C, level 80%. -/
def rawEx : RawBatteryOutput :=
  { charge_counter := some 3000000, alt_capacity := none, voltage_mv := some 3800,
    temperature := some 250, health_code := some 2, level := some 80 }

/-- The properties `get_battery_properties` builds from `rawEx`. -/
def propsEx : BatteryProperties :=
  { capacity_mah := 3000, voltage_mv := 3800, health_code := 2, health_multiplier := 1,
    temperature_c := some 25, level := some 80 }

lemma get_battery_properties_rawEx : get_battery_properties (some rawEx) = some propsEx := by
  simp only [get_battery_properties, rawEx, propsEx, Option.map_some']
  norm_num [health_multiplier_of]

/-- Properties giving zero total battery energy (zero design capacity). -/
def propsZero : BatteryProperties :=
  { capacity_mah := 0, voltage_mv := 3800, health_code := 2, health_multiplier := 1,
    temperature_c := none, level := none }

/-- C3: the health-code multiplier map is exactly
`{2 → 1.0, 3 → 0.8, 4 → 0.5, other → 0.9}` (negative and unseen codes
included), the fetched properties carry exactly that multiplier, and for any
fetched properties with nonzero total battery energy the drain report is
computed by the claimed formulas; on the spec's example (3000 mAh, health 2,
3800 mV, 18000 J) the total energy is 11.4 Wh, the consumed energy 5 Wh and
the drain 2500/57 ≈ 43.86 %. -/
theorem battery_drain_formulas :
    (health_multiplier_of 2 = 1 ∧ health_multiplier_of 3 = 8 / 10 ∧
      health_multiplier_of 4 = 1 / 2 ∧
      ∀ h : Int, h ≠ 2 → h ≠ 3 → h ≠ 4 → health_multiplier_of h = 9 / 10) ∧
    (∀ raw p, get_battery_properties (some raw) = some p →
      p.health_multiplier = health_multiplier_of p.health_code) ∧
    (∀ props energy_joules, total_battery_energy_wh props ≠ 0 →
      drain_from_properties props energy_joules =
        some { design_capacity_mah := props.capacity_mah
               current_voltage_v := (props.voltage_mv : Rat) / 1000
               health_multiplier := props.health_multiplier
               effective_capacity_mah := props.capacity_mah * props.health_multiplier
               total_battery_energy_wh := total_battery_energy_wh props
               consumed_energy_joules := energy_joules
               consumed_energy_wh := energy_joules / 3600
               battery_drain_percentage :=
                 (energy_joules / 3600 / total_battery_energy_wh props) * 100
               temperature_c := props.temperature_c
               battery_level_percent := props.level }) ∧
    (get_battery_properties (some rawEx) = some propsEx ∧
      total_battery_energy_wh propsEx = 114 / 10 ∧
      (drain_from_properties propsEx 18000).map BatteryDrainReport.consumed_energy_wh =
        some 5 ∧
      (drain_from_properties propsEx 18000).map BatteryDrainReport.battery_drain_percentage =
        some (2500 / 57) ∧
      (4385 / 100 : Rat) < 2500 / 57 ∧ (2500 / 57 : Rat) < 4386 / 100) := by
  have htot : total_battery_energy_wh propsEx = 114 / 10 := by
    norm_num [total_battery_energy_wh, propsEx]
  have hdrain : ∀ props energy_joules, total_battery_energy_wh props ≠ 0 →
      drain_from_properties props energy_joules =
        some { design_capacity_mah := props.capacity_mah
               current_voltage_v := (props.voltage_mv : Rat) / 1000
               health_multiplier := props.health_multiplier
               effective_capacity_mah := props.capacity_mah * props.health_multiplier
               total_battery_energy_wh := total_battery_energy_wh props
               consumed_energy_joules := energy_joules
               consumed_energy_wh := energy_joules / 3600
               battery_drain_percentage :=
                 (energy_joules / 3600 / total_battery_energy_wh props) * 100
               temperature_c := props.temperature_c
               battery_level_percent := props.level } := by
    intro props energy_joules hne
    unfold drain_from_properties
    rw [if_neg hne]
  have hex : drain_from_properties propsEx 18000 = some
      { design_capacity_mah := propsEx.capacity_mah
        current_voltage_v := ((propsEx.voltage_mv : Int) : Rat) / 1000
        health_multiplier := propsEx.health_multiplier
        effective_capacity_mah := propsEx.capacity_mah * propsEx.health_multiplier
        total_battery_energy_wh := total_battery_energy_wh propsEx
        consumed_energy_joules := 18000
        consumed_energy_wh := 18000 / 3600
        battery_drain_percentage := (18000 / 3600 / total_battery_energy_wh propsEx) * 100
        temperature_c := propsEx.temperature_c
        battery_level_percent := propsEx.level } :=
    hdrain propsEx 18000 (by rw [htot]; norm_num)
  refine ⟨⟨by norm_num [health_multiplier_of], by norm_num [health_multiplier_of],
      by norm_num [health_multiplier_of], ?_⟩, ?_, hdrain,
      get_battery_properties_rawEx, htot, ?_, ?_, by norm_num, by norm_num⟩
  · intro h h2 h3 h4
    unfold health_multiplier_of
    rw [if_neg h2, if_neg h3, if_neg h4]
    norm_num
  · intro raw p hget
    obtain ⟨cc, ac, vm, tp, hc, lv⟩ := raw
    cases vm <;> cases hc <;> cases cc <;> cases ac <;>
      simp only [get_battery_properties] at hget <;>
      first
        | exact Option.noConfusion hget
        | (have h2 := Option.some.inj hget; subst h2; rfl)
  · rw [hex]
    simp only [Option.map_some']
    norm_num
  · rw [hex]
    simp only [Option.map_some']
    rw [htot]
    norm_num

/-- Witness for C3: an unseen negative health code gets the 0.9 default, and
the spec example's drain percentage evaluates to 2500/57. -/
theorem battery_drain_formulas_witness :
    health_multiplier_of (-7) = 9 / 10 ∧
    (drain_from_properties propsEx 18000).map BatteryDrainReport.battery_drain_percentage =
      some (2500 / 57) := by
  have h := battery_drain_formulas
  exact ⟨h.1.2.2.2 (-7) (by decide) (by decide) (by decide), h.2.2.2.2.2.2.1⟩

/-- C4: the drain estimate is unavailable (`none`) when the shell command
fails or any of voltage, capacity (both sources) or health code could not be
parsed; when properties are available but the total battery energy is zero,
that single call returns `none` (the guard before the division fires — never
a silent 0 % or ill-defined figure, and the function stays total, so no
crash); with nonzero total energy a concrete report is returned. -/
theorem battery_drain_unavailable_cases :
    (get_battery_properties none = none) ∧
    (∀ raw, raw.voltage_mv = none → get_battery_properties (some raw) = none) ∧
    (∀ raw, raw.health_code = none → get_battery_properties (some raw) = none) ∧
    (∀ raw, raw.charge_counter = none → raw.alt_capacity = none →
      get_battery_properties (some raw) = none) ∧
    (∀ self env e, self.properties = none →
      get_battery_properties (env.headD none) = none →
      (calculate_battery_drain self env e).result = none) ∧
    (∀ props e, total_battery_energy_wh props = 0 →
      drain_from_properties props e = none) ∧
    (∀ props e, total_battery_energy_wh props ≠ 0 →
      (drain_from_properties props e).isSome = true) := by
  refine ⟨rfl, ?_, ?_, ?_, ?_, ?_, ?_⟩
  · intro raw h
    obtain ⟨cc, ac, vm, tp, hc, lv⟩ := raw
    simp only at h
    subst h
    cases cc <;> cases ac <;> cases hc <;> rfl
  · intro raw h
    obtain ⟨cc, ac, vm, tp, hc, lv⟩ := raw
    simp only at h
    subst h
    cases cc <;> cases ac <;> cases vm <;> rfl
  · intro raw h1 h2
    obtain ⟨cc, ac, vm, tp, hc, lv⟩ := raw
    simp only at h1 h2
    subst h1
    subst h2
    cases vm <;> cases hc <;> rfl
  · intro self env e h1 h2
    obtain ⟨props⟩ := self
    simp only at h1
    subst h1
    show (match get_battery_properties (env.headD none) with
          | none => none
          | some props => drain_from_properties props e) = none
    rw [h2]
  · intro props e h
    unfold drain_from_properties
    rw [if_pos h]
  · intro props e h
    unfold drain_from_properties
    rw [if_neg h]
    rfl

/-- A raw extraction with the voltage line missing. -/
def rawNoVolt : RawBatteryOutput :=
  { charge_counter := some 3000000, alt_capacity := none, voltage_mv := none,
    temperature := none, health_code := some 2, level := none }

/-- Witness for C4: missing voltage yields no properties, zero capacity
yields `none` for that call, and the example properties yield a report. -/
theorem battery_drain_unavailable_cases_witness :
    get_battery_properties (some rawNoVolt) = none ∧
    drain_from_properties propsZero 18000 = none ∧
    (drain_from_properties propsEx 18000).isSome = true := by
  have h := battery_drain_unavailable_cases
  refine ⟨h.2.1 rawNoVolt rfl, h.2.2.2.2.2.1 propsZero 18000 ?_, h.2.2.2.2.2.2 propsEx 18000 ?_⟩
  · norm_num [total_battery_energy_wh, propsZero]
  · norm_num [total_battery_energy_wh, propsEx]

/-- A run on an instance whose properties are already cached performs no
fetch, keeps the cache untouched and maps the pure drain computation over
the requested energies. -/
lemma run_drain_calls_cached (p : BatteryProperties)
    (env : List (Option RawBatteryOutput)) (energies : List Rat) :
    run_drain_calls { properties := some p } env energies =
      { state := { properties := some p }, env := env, fetches := 0,
        results := energies.map (drain_from_properties p) } := by
  induction energies with
  | nil => rfl
  | cons e es ih =>
    simp only [run_drain_calls, calculate_battery_drain, ih, List.map_cons]

/-- C7 counterexample: when the first fetch fails (the shell command or the
parse yields nothing), the failure is not cached, so a second drain
calculation on the same instance performs a second external fetch — two
fetches on one instance with no explicit refresh. -/
theorem failed_fetch_refetches_twice :
    (run_drain_calls { properties := none } [none, some rawEx] [18000, 18000]).fetches = 2 := by
  simp only [run_drain_calls, calculate_battery_drain, get_battery_properties,
    List.headD_cons, List.tail_cons]

/-- C7 amended: a drain calculation fetches only when no properties are
cached — once a fetch has succeeded, every further call reuses the cached
properties with zero additional fetches — but a failed fetch is not cached,
so the next call fetches again; so the instance performs at most one
*successful* fetch, not at most one fetch. -/
theorem drain_fetch_memoization :
    (∀ p env energies,
      (run_drain_calls { properties := some p } env energies).fetches = 0 ∧
      (run_drain_calls { properties := some p } env energies).state =
        { properties := some p } ∧
      (run_drain_calls { properties := some p } env energies).results =
        energies.map (drain_from_properties p)) ∧
    (∀ raw p env energies, get_battery_properties raw = some p → energies ≠ [] →
      (run_drain_calls { properties := none } (raw :: env) energies).fetches = 1) := by
  constructor
  · intro p env energies
    rw [run_drain_calls_cached]
    exact ⟨rfl, rfl, rfl⟩
  · intro raw p env energies hfetch hne
    cases energies with
    | nil => exact absurd rfl hne
    | cons e es =>
      simp only [run_drain_calls, calculate_battery_drain, List.headD_cons, List.tail_cons,
        hfetch, run_drain_calls_cached]

/-- Witness for the amended C7: a cached instance does zero fetches over two
calls; a fresh instance whose first fetch succeeds does exactly one fetch
over two calls. -/
theorem drain_fetch_memoization_witness :
    (run_drain_calls { properties := some propsEx } [] [18000, 200]).fetches = 0 ∧
    (run_drain_calls { properties := none } [some rawEx] [18000, 200]).fetches = 1 := by
  have h := drain_fetch_memoization
  exact ⟨(h.1 propsEx [] [18000, 200]).1,
    h.2 (some rawEx) propsEx [] [18000, 200] get_battery_properties_rawEx
      (List.cons_ne_nil _ _)⟩

/-- C10: once properties are cached on the instance, `calculate_battery_drain`
only reads them: the call leaves the instance state (and the scripted fetch
environment) untouched, performs no device interaction, and its result — the
optional `temperature_c` and `battery_level_percent` fields included — is the
pure function `drain_from_properties p` of the cached properties, hence equal
across repeated calls with the same consumed energy. -/
theorem cached_properties_frame
    (self : BatteryDrainCalculator) (p : BatteryProperties)
    (hp : self.properties = some p) (enva envb : List (Option RawBatteryOutput))
    (e : Rat) :
    calculate_battery_drain self enva e =
      { state := self, env := enva, fetches := 0,
        result := drain_from_properties p e } ∧
    (calculate_battery_drain self enva e).result =
      (calculate_battery_drain self envb e).result := by
  obtain ⟨props⟩ := self
  simp only at hp
  subst hp
  exact ⟨rfl, rfl⟩

/-- Witness for C10 with cached example properties (temperature and level
present). -/
theorem cached_properties_frame_witness :
    calculate_battery_drain { properties := some propsEx } [] 18000 =
      { state := { properties := some propsEx }, env := [], fetches := 0,
        result := drain_from_properties propsEx 18000 } ∧
    (calculate_battery_drain { properties := some propsEx } [] 18000).result =
      (calculate_battery_drain { properties := some propsEx } [some rawEx] 18000).result :=
  cached_properties_frame { properties := some propsEx } propsEx rfl [] [some rawEx] 18000

/-! ## Memory statistics
(`calculate_memory_stats` in src/manafa/parsing/perfettoEnergyCalculator.py,
and the derived "memory used" figures of `display_new_profiler_results` in
src/manafa/main.py). -/

/-- Python `min` over a non-empty list (0 on the empty list, where the
source never calls it). -/
def listMin : List Rat → Rat
  | [] => 0
  | v :: vs => vs.foldl min v

/-- Python `max` over a non-empty list. -/
def listMax : List Rat → Rat
  | [] => 0
  | v :: vs => vs.foldl max v

/-- The per-counter statistics dictionary built by `calculate_memory_stats`:
min/max/average of the byte values scaled to MB, and the sample count. -/
structure MemoryCounterStats where
  min_mb : Rat
  max_mb : Rat
  avg_mb : Rat
  samples : Nat
deriving DecidableEq, Repr

/-- The loop body of `calculate_memory_stats`: statistics for one counter's
sample values, skipped when there are no samples (`len(values) > 0`
guard). -/
def memStatsOfValues (values : List Rat) : Option MemoryCounterStats :=
  match values with
  | [] => none
  | v :: vs =>
    some { min_mb := (vs.foldl min v) / (1024 * 1024)
           max_mb := (vs.foldl max v) / (1024 * 1024)
           avg_mb := ((v :: vs).sum / (((v :: vs).length : Nat) : Rat)) / (1024 * 1024)
           samples := (v :: vs).length }

/-- The statistics dictionary accumulated over all counters. -/
def memory_stats_entries : List (String × List Rat) → List (String × MemoryCounterStats)
  | [] => []
  | c :: cs =>
    match memStatsOfValues c.2 with
    | none => memory_stats_entries cs
    | some s => (c.1, s) :: memory_stats_entries cs

/-- Embedding of `calculate_memory_stats`: the input is the per-counter
grouped sample values extracted from the trace (grouping preserves the
query's per-counter time order); with no memory data at all the function
returns `None`, otherwise the per-counter statistics mapping. -/
def calculate_memory_stats (counters_data : List (String × List Rat)) :
    Option (List (String × MemoryCounterStats)) :=
  if counters_data = [] then none
  else some (memory_stats_entries counters_data)

/-- Embedding of the "memory used" computation of
`display_new_profiler_results` (src/manafa/main.py, lines 123-132):
available only when both `MemTotal` and `MemAvailable` are present, and
returning `(used_min, used_avg, used_max)`. -/
def memory_used_bounds (mem : List (String × MemoryCounterStats)) :
    Option (Rat × Rat × Rat) :=
  match mem.lookup "MemTotal", mem.lookup "MemAvailable" with
  | some t, some a =>
    some (t.avg_mb - a.max_mb, t.avg_mb - a.avg_mb, t.avg_mb - a.min_mb)
  | _, _ => none

lemma foldl_min_le (vs : List Rat) (a : Rat) : vs.foldl min a ≤ a := by
  induction vs generalizing a with
  | nil => exact le_refl a
  | cons v vs ih => exact le_trans (ih (min a v)) (min_le_left a v)

lemma le_foldl_max (vs : List Rat) (a : Rat) : a ≤ vs.foldl max a := by
  induction vs generalizing a with
  | nil => exact le_refl a
  | cons v vs ih => exact le_trans (le_max_left a v) (ih (max a v))

lemma foldl_min_mul_le_sum (vs : List Rat) (a : Rat) :
    ((vs.length : Rat) + 1) * (vs.foldl min a) ≤ a + vs.sum := by
  induction vs generalizing a with
  | nil => simp
  | cons v vs ih =>
    have h1 := ih (min a v)
    have h2 := foldl_min_le vs (min a v)
    have h3 : min a v ≤ a := min_le_left a v
    have h4 : min a v ≤ v := min_le_right a v
    simp only [List.foldl_cons, List.length_cons, List.sum_cons]
    push_cast
    nlinarith [h1, h2, h3, h4]

lemma sum_le_foldl_max_mul (vs : List Rat) (a : Rat) :
    a + vs.sum ≤ ((vs.length : Rat) + 1) * (vs.foldl max a) := by
  induction vs generalizing a with
  | nil => simp
  | cons v vs ih =>
    have h1 := ih (max a v)
    have h2 := le_foldl_max vs (max a v)
    have h3 : a ≤ max a v := le_max_left a v
    have h4 : v ≤ max a v := le_max_right a v
    simp only [List.foldl_cons, List.length_cons, List.sum_cons]
    push_cast
    nlinarith [h1, h2, h3, h4]

/-- The statistics of a non-empty series satisfy the claimed shape and
ordering. -/
lemma memStatsOfValues_bounds {values : List Rat} {s : MemoryCounterStats}
    (h : memStatsOfValues values = some s) :
    s.min_mb ≤ s.avg_mb ∧ s.avg_mb ≤ s.max_mb ∧
    s.samples = values.length ∧ 1 ≤ s.samples ∧
    s.min_mb = listMin values / (1024 * 1024) ∧
    s.max_mb = listMax values / (1024 * 1024) ∧
    s.avg_mb = values.sum / ((values.length : Nat) : Rat) / (1024 * 1024) := by
  cases values with
  | nil => exact Option.noConfusion h
  | cons v vs =>
    have hs := Option.some.inj h
    subst hs
    have hn : (0 : Rat) < (vs.length : Rat) + 1 := by positivity
    have hmin : vs.foldl min v ≤ (v + vs.sum) / ((vs.length : Rat) + 1) := by
      rw [le_div_iff₀ hn]
      have := foldl_min_mul_le_sum vs v
      nlinarith [this]
    have hmax : (v + vs.sum) / ((vs.length : Rat) + 1) ≤ vs.foldl max v := by
      rw [div_le_iff₀ hn]
      have := sum_le_foldl_max_mul vs v
      nlinarith [this]
    have hcast : (((v :: vs).length : Nat) : Rat) = (vs.length : Rat) + 1 := by
      simp only [List.length_cons]
      push_cast
      ring
    refine ⟨?_, ?_, rfl, by simp, rfl, rfl, rfl⟩
    · show (vs.foldl min v) / (1024 * 1024) ≤
        ((v :: vs).sum / (((v :: vs).length : Nat) : Rat)) / (1024 * 1024)
      rw [List.sum_cons, hcast]
      exact (div_le_div_iff_of_pos_right (by norm_num)).mpr hmin
    · show ((v :: vs).sum / (((v :: vs).length : Nat) : Rat)) / (1024 * 1024) ≤
        (vs.foldl max v) / (1024 * 1024)
      rw [List.sum_cons, hcast]
      exact (div_le_div_iff_of_pos_right (by norm_num)).mpr hmax

/-- Characterisation of the entries of the memory statistics mapping. -/
lemma mem_memory_stats_entries {cd : List (String × List Rat)} {name : String}
    {s : MemoryCounterStats} :
    (name, s) ∈ memory_stats_entries cd ↔
      ∃ values, (name, values) ∈ cd ∧ memStatsOfValues values = some s := by
  induction cd with
  | nil => simp [memory_stats_entries]
  | cons c cs ih =>
    obtain ⟨n, vs⟩ := c
    cases hm : memStatsOfValues vs with
    | none =>
      simp only [memory_stats_entries, hm, ih, List.mem_cons, Prod.mk.injEq]
      constructor
      · rintro ⟨values, hv, hsv⟩
        exact ⟨values, Or.inr hv, hsv⟩
      · rintro ⟨values, (⟨hn, hv⟩ | hv), hsv⟩
        · subst hv; exact absurd hsv (by rw [hm]; exact fun h => Option.noConfusion h)
        · exact ⟨values, hv, hsv⟩
    | some s0 =>
      simp only [memory_stats_entries, hm, ih, List.mem_cons, Prod.mk.injEq]
      constructor
      · rintro (⟨hn, hs⟩ | ⟨values, hv, hsv⟩)
        · exact ⟨vs, Or.inl ⟨hn, rfl⟩, by rw [hm, hs]⟩
        · exact ⟨values, Or.inr hv, hsv⟩
      · rintro ⟨values, (⟨hn, hv⟩ | hv), hsv⟩
        · subst hn; subst hv
          rw [hm] at hsv
          exact Or.inl ⟨rfl, (Option.some.inj hsv).symm⟩
        · exact Or.inr ⟨values, hv, hsv⟩

/-- C8: every counter with at least one sample appears in the result with
`min ≤ avg ≤ max` (min/mean/max of `value/(1024*1024)`), a sample count
equal to the series length and at least 1; a non-empty series always
produces statistics; counters with an empty series are omitted from the
result entirely. -/
theorem memory_stats_has_bounds
    (counters_data : List (String × List Rat))
    (stats : List (String × MemoryCounterStats))
    (hnd : (counters_data.map Prod.fst).Nodup)
    (hres : calculate_memory_stats counters_data = some stats) :
    (∀ name values s, (name, values) ∈ counters_data →
      memStatsOfValues values = some s →
      (name, s) ∈ stats ∧ s.min_mb ≤ s.avg_mb ∧ s.avg_mb ≤ s.max_mb ∧
      s.samples = values.length ∧ 1 ≤ s.samples ∧
      s.min_mb = listMin values / (1024 * 1024) ∧
      s.max_mb = listMax values / (1024 * 1024) ∧
      s.avg_mb = values.sum / ((values.length : Nat) : Rat) / (1024 * 1024)) ∧
    (∀ values : List Rat, values ≠ [] → (memStatsOfValues values).isSome = true) ∧
    (∀ name values, (name, values) ∈ counters_data → values = [] →
      ∀ s, (name, s) ∉ stats) := by
  unfold calculate_memory_stats at hres
  split at hres
  · exact absurd hres (by simp)
  · have h := Option.some.inj hres
    subst h
    refine ⟨?_, ?_, ?_⟩
    · intro name values s hmem hsv
      have hb := memStatsOfValues_bounds hsv
      exact ⟨mem_memory_stats_entries.mpr ⟨values, hmem, hsv⟩, hb.1, hb.2.1, hb.2.2.1,
        hb.2.2.2.1, hb.2.2.2.2.1, hb.2.2.2.2.2.1, hb.2.2.2.2.2.2⟩
    · intro values hne
      cases values with
      | nil => exact absurd rfl hne
      | cons v vs => rfl
    · intro name values hmem hemp s hmem2
      obtain ⟨values2, hv2, hsv2⟩ := mem_memory_stats_entries.mp hmem2
      have heq : values2 = values := snd_eq_of_nodup_fst hnd hv2 hmem
      subst heq
      subst hemp
      exact Option.noConfusion hsv2

/-- Bytes per MB: the `1024 * 1024` scale of `calculate_memory_stats`. -/
def bytesPerMB : Rat := 1024 * 1024

/-- Concrete grouped memory counters matching the spec's example: `MemTotal`
constant at 8000 MB (as bytes), `MemAvailable` between 1500 and 2500 MB with
average 2000 MB, and a counter with no samples. -/
def memEx : List (String × List Rat) :=
  [("MemTotal", [8000 * bytesPerMB, 8000 * bytesPerMB, 8000 * bytesPerMB]),
   ("MemAvailable", [1500 * bytesPerMB, 2500 * bytesPerMB]),
   ("Cached", [])]

/-- Statistics of the `MemTotal` series of `memEx`. -/
def tStat : MemoryCounterStats :=
  { min_mb := 8000, max_mb := 8000, avg_mb := 8000, samples := 3 }

/-- Statistics of the `MemAvailable` series of `memEx`. -/
def aStat : MemoryCounterStats :=
  { min_mb := 1500, max_mb := 2500, avg_mb := 2000, samples := 2 }

/-- The mapping `calculate_memory_stats` produces on `memEx` (the empty
`Cached` series is omitted). -/
def statsEx : List (String × MemoryCounterStats) :=
  [("MemTotal", tStat), ("MemAvailable", aStat)]

lemma memStats_nilEx : memStatsOfValues ([] : List Rat) = none := rfl

lemma memStats_tEx :
    memStatsOfValues [8000 * bytesPerMB, 8000 * bytesPerMB, 8000 * bytesPerMB] =
      some tStat := by
  simp only [memStatsOfValues, tStat, bytesPerMB, List.foldl_cons, List.foldl_nil,
    List.sum_cons, List.sum_nil, List.length_cons, List.length_nil, min_def, max_def]
  norm_num

lemma memStats_aEx :
    memStatsOfValues [1500 * bytesPerMB, 2500 * bytesPerMB] = some aStat := by
  simp only [memStatsOfValues, aStat, bytesPerMB, List.foldl_cons, List.foldl_nil,
    List.sum_cons, List.sum_nil, List.length_cons, List.length_nil, min_def, max_def]
  norm_num

lemma calculate_memory_stats_memEx : calculate_memory_stats memEx = some statsEx := by
  unfold memEx calculate_memory_stats
  rw [if_neg (by decide)]
  simp only [memory_stats_entries, memStats_tEx, memStats_aEx, memStats_nilEx, statsEx]

/-- Witness for C8 on `memEx`: the two-sample `MemAvailable` series appears
with ordered statistics and sample count 2, and the empty `Cached` series is
omitted. -/
theorem memory_stats_has_bounds_witness :
    (("MemAvailable", aStat) ∈ statsEx) ∧
    aStat.min_mb ≤ aStat.avg_mb ∧ aStat.avg_mb ≤ aStat.max_mb ∧
    aStat.samples = [(1500 : Rat) * bytesPerMB, 2500 * bytesPerMB].length ∧
    (("Cached", tStat) ∉ statsEx) := by
  have h := memory_stats_has_bounds memEx statsEx (by decide) calculate_memory_stats_memEx
  have ha := h.1 "MemAvailable" [1500 * bytesPerMB, 2500 * bytesPerMB] aStat
    (by unfold memEx; exact List.Mem.tail _ (List.Mem.head _)) memStats_aEx
  have hc := h.2.2 "Cached" []
    (by unfold memEx; exact List.Mem.tail _ (List.Mem.tail _ (List.Mem.head _))) rfl tStat
  exact ⟨ha.1, ha.2.1, ha.2.2.1, ha.2.2.2.1, hc⟩

/-- C9: the derived "memory used" bounds use the inverted pairing exactly —
`used_min = MemTotal.avg - MemAvailable.max`,
`used_avg = MemTotal.avg - MemAvailable.avg`,
`used_max = MemTotal.avg - MemAvailable.min` — and on the spec's example
(total 8000 MB, available avg 2000 MB) the used-avg is 6000 MB. -/
theorem memory_used_inverted_pairing :
    (∀ mem t a, mem.lookup "MemTotal" = some t →
      mem.lookup "MemAvailable" = some a →
      memory_used_bounds mem =
        some (t.avg_mb - a.max_mb, t.avg_mb - a.avg_mb, t.avg_mb - a.min_mb)) ∧
    (calculate_memory_stats memEx = some statsEx ∧
      memory_used_bounds statsEx = some (8000 - 2500, 8000 - 2000, 8000 - 1500)) := by
  constructor
  · intro mem t a h1 h2
    unfold memory_used_bounds
    rw [h1, h2]
  · refine ⟨calculate_memory_stats_memEx, ?_⟩
    simp only [memory_used_bounds, statsEx, List.lookup, tStat, aStat,
      show ("MemAvailable" == "MemTotal") = false from rfl,
      show ("MemTotal" == "MemTotal") = true from rfl,
      show ("MemAvailable" == "MemAvailable") = true from rfl]

/-- Witness for C9 at the concrete statistics of `memEx`. -/
theorem memory_used_inverted_pairing_witness :
    memory_used_bounds statsEx =
      some (tStat.avg_mb - aStat.max_mb, tStat.avg_mb - aStat.avg_mb,
        tStat.avg_mb - aStat.min_mb) := by
  have h := memory_used_inverted_pairing
  exact h.1 statsEx tStat aStat (by simp [statsEx, List.lookup])
    (by simp [statsEx, List.lookup])

end EManafa
